import Mathlib

/-!
# dbfpy — shallow embedding and verification

A shallow embedding of the codec core of the `dbfpy` repository
(`src/dbfpy/fields.py`, `src/dbfpy/header.py`, `src/dbfpy/record.py`),
with theorems settling the frozen specification claims.

Conventions of the embedding:

* Python `bytes` values are `List Nat` with every element below 256
  (`Bytes`); a single byte is a `Nat`.
* Character-set decoding (`bytes.decode(encoding)`) is modelled as the
  identity on code points (decoded text is its list of code points),
  which is exact for the single-byte encodings the format targets; no
  claim depends on a particular code page.
* Fallible Python code (a `raise`) is `Except DbfError α`; the
  `DbfError` constructors name the raise sites of the source.
* Machine integers are `Nat`/`Int`; little-endian packing uses explicit
  `% 256` arithmetic.

The modules `utils.py` and `memo.py` of the repository are not present in
the source tree; the few helpers taken from them (`unzfill`,
`INVALID_VALUE` together with `DbfField.decode_from_record`) are modelled
from the specification and carry a `Modelled from the spec:` note.
-/

namespace Dbfpy

/-- A single byte value (0..255). -/
abbrev Byte := Nat

/-- A Python `bytes` object: a list of byte values. -/
abbrev Bytes := List Nat

/-- Error kinds, one per raise site of the source.

* `malformedHeader` — `header.py` `parse`: `'header data less than 32 bytes'`
* `fieldStartMismatch` — `header.py` `parse`: `'dbf fields definition is corrupt'`
* `recordLengthMismatch` — `header.py` `__init__`:
  `"record length doesn't match sum(fields.length)"`
* `schemaFrozen` — `header.py` `add_field`: `TypeError` once records exist
* `unknownType` — `fields.py` `DbfFields.get`: `KeyError` for an
  unregistered type tag
* `badDescriptorLength` — `fields.py` `DbfFields.parse`: descriptor is not
  32 bytes
* `invalidFieldName` — `fields.py` name setter: name longer than 10 bytes
* `invalidLength` — `fields.py` `DbfField.__init__`: missing or
  non-positive length for a variable-length field
* `invalidValue` — value conversion `ValueError` (logical byte, date text)
* `numericOverflow` — `fields.py` `DbfNumericField.encode` overflow
* `structError` — `struct.unpack` on a value slice of the wrong size
* `assertError` — `fields.py` `DbfDateTimeField.decode` length assert
* `memoNotBound` — memo block read with no memo file attached
  (`field.file is None`)
* `indexError` / `keyError` — Python sequence / mapping lookup failures -/
inductive DbfError where
  | malformedHeader
  | fieldStartMismatch
  | recordLengthMismatch
  | schemaFrozen
  | unknownType
  | badDescriptorLength
  | invalidFieldName
  | invalidLength
  | invalidValue
  | numericOverflow
  | structError
  | assertError
  | memoNotBound
  | indexError
  | keyError
  deriving DecidableEq, Repr

/-- Little-endian unsigned read of `k` bytes from the front of `bs`. -/
def leRead (k : Nat) (bs : Bytes) : Nat :=
  match k with
  | 0 => 0
  | k + 1 =>
    match bs with
    | [] => 0
    | b :: rest => b + 256 * leRead k rest

/-- `struct.unpack("<I", ·)`: little-endian unsigned 32-bit. -/
def le32 (bs : Bytes) : Nat := leRead 4 bs

/-- `struct.unpack("<H", ·)`: little-endian unsigned 16-bit. -/
def le16 (bs : Bytes) : Nat := leRead 2 bs

/-- Little-endian encoding of `n` into exactly `k` bytes (`n % 2^(8k)`). -/
def leWrite (k : Nat) (n : Nat) : Bytes :=
  match k with
  | 0 => []
  | k + 1 => n % 256 :: leWrite k (n / 256)

/-- Two's-complement reinterpretation of a `w`-bit unsigned value. -/
def toSigned (w : Nat) (n : Nat) : Int :=
  if n < 2 ^ (w - 1) then (n : Int) else (n : Int) - 2 ^ w

/-- Python `bytes.upper()` on one byte: ASCII lowercase to uppercase. -/
def byteUpper (b : Byte) : Byte :=
  if 97 ≤ b ∧ b ≤ 122 then b - 32 else b

/-- Python `needle in hay` for `bytes`: substring containment. -/
def pyBytesIn (needle hay : Bytes) : Bool :=
  hay.tails.any (fun t => needle.isPrefixOf t)

/-- Decoded text (`str`) is kept as its list of code points, so that the
charset decode of the embedding is literally the identity; ASCII
characters appear as their byte values. -/
abbrev PyStr := List Nat

end Dbfpy

namespace Dbfpy

/-! ## Field values

Decoded Python values, one constructor per shape the field codecs of
`fields.py` can return (`str`, `float`, `int`, `bool`, `datetime.date`,
`datetime.datetime`, `None`, `MemoData`). -/

/-- A decoded Python field value. -/
inductive PyValue where
  /-- A `str` (from `DbfCharacterField` / `DbfMemoField`), as its code
  points. -/
  | str (s : PyStr)
  /-- A `float` (from `DbfNumericField` / `DbfCurrencyField`). -/
  | pyFloat (q : ℚ)
  /-- An `int` (from `DbfIntegerField`, and `-1` from `DbfLogicalField`). -/
  | pyInt (z : ℤ)
  /-- A `bool` (from `DbfLogicalField`). -/
  | pyBool (b : Bool)
  /-- A `datetime.date` as (year, month, day) (from `DbfDateField`). -/
  | date (y m d : Nat)
  /-- A `datetime.datetime` as Gregorian ordinal plus milliseconds since
  midnight (from `DbfDateTimeField`). -/
  | dateTime (ordinal msecs : Nat)
  /-- Python `None` (empty date / empty timestamp). -/
  | noneVal
  /-- A `MemoData` payload with its memo type tag. -/
  | memoData (payload : Bytes) (memoType : Nat)
  deriving DecidableEq, Repr

/-! ## Logical field (`fields.py`, `DbfLogicalField`) -/

/-- `DbfLogicalField.decode` (fields.py:342-351): `b"?"` gives `-1`,
a byte of `b"NnFf "` gives `False`, a byte of `b"YyTt"` gives `True`,
anything else raises `ValueError`.  The two membership tests are Python
`in` on `bytes`, i.e. substring containment of the sliced raw value. -/
def logical_decode (value : Bytes) : Except DbfError PyValue :=
  if value = [0x3F] then .ok (.pyInt (-1))
  else if pyBytesIn value [0x4E, 0x6E, 0x46, 0x66, 0x20] then .ok (.pyBool false)
  else if pyBytesIn value [0x59, 0x79, 0x54, 0x74] then .ok (.pyBool true)
  else .error .invalidValue

/-- Python `value == -1` for a `PyValue`: numeric equality with `-1`
(`-1.0 == -1` is true, `True == -1` and `False == -1` are false). -/
def pyEqNegOne : PyValue → Bool
  | .pyInt z => z = -1
  | .pyFloat q => q = -1
  | _ => false

/-- `DbfLogicalField.encode` (fields.py:353-365): `value is True` gives
`b"T"`, `value == -1` gives `b"?"`, anything else gives `b"F"`. -/
def logical_encode (value : PyValue) : Bytes :=
  if value = .pyBool true then [0x54]
  else if pyEqNegOne value then [0x3F]
  else [0x46]

/-- The byte sets of `DbfLogicalField.decode`: singleton containment in a
concrete byte string is membership. -/
theorem pyBytesIn_singleton (b : Byte) (hay : Bytes) :
    pyBytesIn [b] hay = hay.contains b := by
  induction hay with
  | nil => rfl
  | cons x xs ih =>
    simp only [pyBytesIn, List.tails, List.any_cons, List.isPrefixOf,
      List.contains_cons] at *
    cases h : b == x with
    | true => simp [h, List.isPrefixOf]
    | false => simpa [h, List.isPrefixOf] using ih

end Dbfpy

namespace Dbfpy

/-! ## Numeric field (`fields.py`, `DbfNumericField`) -/

/-- A byte stripped by `bytes.strip(b" \x00")`: space or NUL. -/
def isPadByte (b : Byte) : Bool := b == 0x20 || b == 0x00

/-- Python `bytes.strip(b" \x00")`: remove space/NUL padding from both
ends. -/
def pyStrip (bs : Bytes) : Bytes :=
  ((bs.dropWhile isPadByte).reverse.dropWhile isPadByte).reverse

/-- An ASCII decimal digit code point. -/
def isDigitCp (c : Nat) : Bool := 48 ≤ c && c ≤ 57

/-- Decimal value of a digit string of code points. -/
def natVal (cs : PyStr) : Nat :=
  cs.foldl (fun a c => 10 * a + (c - 48)) 0

/-- Core of the Python built-in `float()` on an unsigned literal:
integer digits, optionally a dot followed by fraction digits, at least
one digit in total.  (The exponent, `inf`/`nan` and underscore forms the
built-in also accepts never arise from the fixed-point texts this codec
reads and are not modelled.) -/
def pyFloatCore (cs : PyStr) : Option ℚ :=
  let ip := cs.takeWhile isDigitCp
  match cs.dropWhile isDigitCp with
  | [] => if ip.isEmpty then none else some (natVal ip)
  | 46 :: fp =>
    if fp.all isDigitCp && !(ip.isEmpty && fp.isEmpty) then
      some ((natVal ip : ℚ) + (natVal fp : ℚ) / 10 ^ fp.length)
    else none
  | _ => none

/-- The Python built-in `float()` on a fixed-point literal with optional
sign (`+` = 43, `-` = 45); `none` is the `ValueError` case. -/
def pyFloat? (cs : PyStr) : Option ℚ :=
  match cs with
  | 43 :: rest => pyFloatCore rest
  | 45 :: rest => (pyFloatCore rest).map (fun q => -q)
  | rest => pyFloatCore rest

/-- `DbfNumericField.decode` (fields.py:263-272):
`float(value.strip(b" \x00").decode(encoding))` guarded by
`try ... except ValueError: return 0.0`.  It always produces a `float`
and never raises: empty and unparsable texts both fall back to `0.0`. -/
def numeric_decode (raw : Bytes) : Except DbfError PyValue :=
  match pyFloat? (pyStrip raw) with
  | some q => .ok (.pyFloat q)
  | none => .ok (.pyFloat 0)

/-- Equality on `Except` results is decidable componentwise. -/
instance {ε α : Type} [DecidableEq ε] [DecidableEq α] :
    DecidableEq (Except ε α) := fun x y =>
  match x, y with
  | .ok a, .ok b =>
    if h : a = b then .isTrue (by rw [h])
    else .isFalse (fun he => h (Except.ok.inj he))
  | .error a, .error b =>
    if h : a = b then .isTrue (by rw [h])
    else .isFalse (fun he => h (Except.error.inj he))
  | .ok _, .error _ => .isFalse (fun he => Except.noConfusion he)
  | .error _, .ok _ => .isFalse (fun he => Except.noConfusion he)

/-- Decimal digit code points of `m`, most significant first, with
recursion fuel (`fuel > m` suffices since `m / 10 < m`). -/
def natDigitsGo (fuel m : Nat) : PyStr :=
  match fuel with
  | 0 => []
  | fuel + 1 =>
    if m < 10 then [48 + m]
    else natDigitsGo fuel (m / 10) ++ [48 + m % 10]

/-- Decimal digit code points of `m`, most significant first (the
digits of Python's `"%d"`). -/
def natDigits (m : Nat) : PyStr :=
  natDigitsGo (m + 1) m

/-- Zero-pad the digits of `m` on the left to `k` characters (the
fraction part of `"%.*f"`, which prints exactly `decimal_count`
digits). -/
def padZeros (k : Nat) (m : Nat) : PyStr :=
  List.replicate (k - (natDigits m).length) 48 ++ natDigits m

/-- Python `"%*.*f" % (width, dc, value)` on a value representable
exactly at precision `dc`: `n` is the value scaled by `10 ^ dc`
(so the text needs no rounding), rendered with a sign (`-` = 45), at
least one integer digit, exactly `dc` fraction digits after the dot
(`.` = 46) when `dc > 0`, and left-padded with spaces to `width`. -/
def ffCore (dc : Nat) (n : ℤ) : PyStr :=
  (if n < 0 then [45] else []) ++ natDigits (n.natAbs / 10 ^ dc) ++
    (if dc = 0 then [] else 46 :: padZeros dc (n.natAbs % 10 ^ dc))

/-- Python `"%*.*f" % (width, dc, value)`, continued: the core text
left-padded with spaces to `width`. -/
def formatFixed (width dc : Nat) (n : ℤ) : PyStr :=
  List.replicate (width - (ffCore dc n).length) 32 ++ ffCore dc n

/-- Python `str.find`: index of the first occurrence, `-1` if absent. -/
def pyFind (cs : PyStr) (c : Nat) : ℤ :=
  match cs.findIdx? (· == c) with
  | some i => (i : ℤ)
  | none => -1

/-- `DbfNumericField.encode` (fields.py:274-286): format the value as
`"%*.*f"`; if the text overflows the field width, raise the numeric
overflow `ValueError` unless `0 <= string.find(".") <= self.length`,
in which case truncate the text to `length` characters. -/
def numeric_encode (length dc : Nat) (n : ℤ) : Except DbfError PyStr :=
  let string := formatFixed length dc n
  if string.length > length then
    if ¬(0 ≤ pyFind string 46 ∧ pyFind string 46 ≤ (length : ℤ)) then
      .error .numericOverflow
    else .ok (string.take length)
  else .ok string

/-- Length of the sign-plus-integer-digits prefix of the formatted text
(the index of its decimal point when `dc > 0`). -/
def intPartLen (dc : Nat) (n : ℤ) : Nat :=
  (if n < 0 then 1 else 0) + (natDigits (n.natAbs / 10 ^ dc)).length

example : formatFixed 10 2 12340
    = [32, 32, 32, 32, 49, 50, 51, 46, 52, 48] := by decide
example : formatFixed 3 1 1234 = [49, 50, 51, 46, 52] := by decide
example : numeric_encode 3 1 1234 = .ok [49, 50, 51] := by decide
example : numeric_encode 3 0 1234 = .error .numericOverflow := by decide
example : numeric_encode 12 2 (-12340)
    = .ok [32, 32, 32, 32, 32, 45, 49, 50, 51, 46, 52, 48] := by decide
example : numeric_decode [0x20, 0x20, 0x31, 0x32, 0x33, 0x2E, 0x34, 0x30]
    = .ok (.pyFloat (617 / 5)) := by
  norm_num [numeric_decode, pyFloat?, pyFloatCore, natVal, pyStrip,
    isPadByte, isDigitCp]
example : numeric_decode [0x61, 0x62, 0x63] = .ok (.pyFloat 0) := by
  norm_num [numeric_decode, pyFloat?, pyFloatCore, natVal, pyStrip,
    isPadByte, isDigitCp]
example : numeric_decode [] = .ok (.pyFloat 0) := by
  norm_num [numeric_decode, pyFloat?, pyFloatCore, natVal, pyStrip,
    isPadByte, isDigitCp]

end Dbfpy

namespace Dbfpy

/-! ## Field definitions (`fields.py`, `DbfField` and subclasses) -/

/-- The registered field types of `fields.py` (one subclass of
`DbfField` per single-byte type tag). -/
inductive FieldType where
  | character   -- `DbfCharacterField`, tag `C`
  | numeric     -- `DbfNumericField`, tag `N`
  | float       -- `DbfFloatField`, tag `F` (alias of numeric)
  | integer     -- `DbfIntegerField`, tag `I`
  | currency    -- `DbfCurrencyField`, tag `Y`
  | logical     -- `DbfLogicalField`, tag `L`
  | general     -- `DbfGeneralField`, tag `G`
  | memo        -- `DbfMemoField`, tag `M`
  | picture     -- `DbfPictureField`, tag `P`
  | date        -- `DbfDateField`, tag `D`
  | dateTime    -- `DbfDateTimeField`, tag `T`
  deriving DecidableEq, Repr

/-- The `type_code` class attribute (an uppercase ASCII tag byte). -/
def FieldType.typeCode : FieldType → Byte
  | .character => 0x43
  | .numeric => 0x4E
  | .float => 0x46
  | .integer => 0x49
  | .currency => 0x59
  | .logical => 0x4C
  | .general => 0x47
  | .memo => 0x4D
  | .picture => 0x50
  | .date => 0x44
  | .dateTime => 0x54

/-- The `fixed_length` class attribute: `none` for variable-length
types, otherwise the fixed byte length. -/
def FieldType.fixedLength : FieldType → Option Nat
  | .character => none
  | .numeric => none
  | .float => none
  | .integer => some 4
  | .currency => some 8
  | .logical => some 1
  | .general => some 4
  | .memo => some 4
  | .picture => some 4
  | .date => some 8
  | .dateTime => some 8

/-- The `is_memo` class attribute. -/
def FieldType.isMemo : FieldType → Bool
  | .general => true
  | .memo => true
  | .picture => true
  | _ => false

/-- `DbfFields.get` (fields.py:44-63): the registry lookup, keyed by the
uppercased tag byte; an unregistered tag raises `KeyError`. -/
def DbfFields.get (type_code : Byte) : Except DbfError FieldType :=
  match byteUpper type_code with
  | 0x43 => .ok .character
  | 0x4E => .ok .numeric
  | 0x46 => .ok .float
  | 0x49 => .ok .integer
  | 0x59 => .ok .currency
  | 0x4C => .ok .logical
  | 0x47 => .ok .general
  | 0x4D => .ok .memo
  | 0x50 => .ok .picture
  | 0x44 => .ok .date
  | 0x54 => .ok .dateTime
  | _ => .error .unknownType

/-- A constructed field definition: the `DbfField` instance slots
(`_name`, `start`, `length`, `decimal_count`, `flag`, `ai_next`,
`ai_step`, `ignore_errors`) plus the class of the instance. -/
structure FieldDef where
  ftype : FieldType
  name : Bytes
  start : Nat
  length : Nat
  decimal_count : Nat
  flag : Byte
  ai_next : Nat
  ai_step : Byte
  ignore_errors : Bool
  deriving DecidableEq, Repr

/-- `DbfField.__init__` plus the `name` setter (fields.py:136-188):
resolve the length (the fixed length of the class if any, otherwise the
caller's length, which must be present and positive), require the name
to be at most 10 bytes and uppercase it, and force `decimal_count` to 4
for the currency type (whose property setter discards the given value
and whose getter always returns 4). -/
def mkField (ft : FieldType) (name : Bytes) (length? : Option Nat)
    (decimal_count : Nat) (start : Nat) (flag : Byte) (ai_next : Nat)
    (ai_step : Byte) (ignore_errors : Bool) : Except DbfError FieldDef := do
  let length ← match ft.fixedLength with
    | none =>
      match length? with
      | none => .error .invalidLength
      | some l => if l = 0 then .error .invalidLength else .ok l
    | some fl => .ok fl
  if name.length > 10 then .error .invalidFieldName
  else
    .ok {
      ftype := ft
      name := name.map byteUpper
      start := start
      length := length
      decimal_count := if ft = .currency then 4 else decimal_count
      flag := flag
      ai_next := ai_next
      ai_step := ai_step
      ignore_errors := ignore_errors
    }

/-- Modelled from the spec: `utils.unzfill` (the module `utils.py` is
not in the source tree) removes the zero-fill of a padded name — the
bytes before the first NUL (§6: name is "11, NUL/space-padded"). -/
def unzfill (bs : Bytes) : Bytes :=
  bs.takeWhile (· ≠ 0)

/-- `DbfFields.parse` (fields.py:65-94): a descriptor must be exactly 32
bytes; `struct.unpack('< 11s c I 3B I B', string[:24])` reads the padded
name, tag byte, start offset (LE32), length, decimal count and flag
bytes, autoincrement-next (LE32) and autoincrement-step; bytes 24..31
are not read.  The codec class comes from the registry and the instance
from its constructor. -/
def DbfFields.parse (string : Bytes) (ignore_errors : Bool) :
    Except DbfError FieldDef :=
  if string.length ≠ 32 then .error .badDescriptorLength
  else do
    let ft ← DbfFields.get (string.getD 11 0)
    mkField ft (unzfill (string.take 11)) (some (string.getD 16 0))
      (string.getD 17 0) (le32 (string.drop 12)) (string.getD 18 0)
      (le32 (string.drop 19)) (string.getD 23 0) ignore_errors

/-- `DbfField.to_bytes` (fields.py:190-208):
`struct.pack('< 11s c I 3B I B 8s', ...)` — the name NUL-padded to 11
bytes, the class tag byte, start (LE32), length, decimal count and flag
bytes, autoincrement-next (LE32), autoincrement-step, and 8 zero bytes
of reserved padding. -/
def FieldDef.to_bytes (fd : FieldDef) : Bytes :=
  (fd.name ++ List.replicate (11 - fd.name.length) 0) ++
    [fd.ftype.typeCode] ++ leWrite 4 fd.start ++
    [fd.length % 256, fd.decimal_count % 256, fd.flag % 256] ++
    leWrite 4 fd.ai_next ++ [fd.ai_step % 256] ++ List.replicate 8 0

/-- The descriptor of the fields test (`tests/test_fields.py`,
`test_numeric_field`): name `NAME`, tag `N`, start 1, length 10,
decimal count 2 — parses to a numeric field and serializes back
byte-identically. -/
example :
    DbfFields.parse
      ([0x4E, 0x41, 0x4D, 0x45, 0, 0, 0, 0, 0, 0, 0] ++ [0x4E] ++
        [1, 0, 0, 0] ++ [10, 2, 0] ++ [0, 0, 0, 0] ++ [0] ++
        List.replicate 8 0) false
    = .ok {
        ftype := .numeric, name := [0x4E, 0x41, 0x4D, 0x45], start := 1,
        length := 10, decimal_count := 2, flag := 0, ai_next := 0,
        ai_step := 0, ignore_errors := false } := by decide

example :
    (FieldDef.to_bytes {
        ftype := .numeric, name := [0x4E, 0x41, 0x4D, 0x45], start := 1,
        length := 10, decimal_count := 2, flag := 0, ai_next := 0,
        ai_step := 0, ignore_errors := false })
    = ([0x4E, 0x41, 0x4D, 0x45, 0, 0, 0, 0, 0, 0, 0] ++ [0x4E] ++
        [1, 0, 0, 0] ++ [10, 2, 0] ++ [0, 0, 0, 0] ++ [0] ++
        List.replicate 8 0) := by decide

end Dbfpy

namespace Dbfpy

/-! ## The remaining value codecs (`fields.py`) -/

/-- `DbfCharacterField.decode` (fields.py:244-249):
`value.decode(encoding).rstrip(" ")`. -/
def character_decode (raw : Bytes) : Except DbfError PyValue :=
  .ok (.str ((raw.reverse.dropWhile (· == 0x20)).reverse))

/-- `DbfIntegerField.decode` (fields.py:302-304):
`struct.unpack("<i", value)[0]` — little-endian signed 32-bit;
`struct.unpack` raises unless the slice is exactly 4 bytes. -/
def integer_decode (raw : Bytes) : Except DbfError PyValue :=
  if raw.length ≠ 4 then .error .structError
  else .ok (.pyInt (toSigned 32 (le32 raw)))

/-- `DbfCurrencyField.decode` (fields.py:326-328):
`struct.unpack("<q", value)[0] / 10000.` — little-endian signed 64-bit
scaled down by 10000; `struct.unpack` raises unless the slice is
exactly 8 bytes. -/
def currency_decode (raw : Bytes) : Except DbfError PyValue :=
  if raw.length ≠ 8 then .error .structError
  else .ok (.pyFloat ((toSigned 64 (leRead 8 raw) : ℚ) / 10000))

/-- Gregorian calendar: length of a month (`datetime.date` validity). -/
def daysInMonth (y m : Nat) : Nat :=
  if m = 2 then
    if y % 4 = 0 ∧ (y % 100 ≠ 0 ∨ y % 400 = 0) then 29 else 28
  else if m = 4 ∨ m = 6 ∨ m = 9 ∨ m = 11 then 30
  else 31

/-- `datetime.date(y, m, d)` accepts exactly these triples (year within
`MINYEAR..MAXYEAR`, month 1..12, day within the month). -/
def validDate (y m d : Nat) : Bool :=
  1 ≤ y && y ≤ 9999 && 1 ≤ m && m ≤ 12 && 1 ≤ d && d ≤ daysInMonth y m

/-- Python `bytes.strip()` with no argument (whitespace): the date codec
only ever meets space-padded text, so whitespace is the ASCII blank. -/
def pyStripWs (bs : Bytes) : Bytes :=
  ((bs.dropWhile (· == 0x20)).reverse.dropWhile (· == 0x20)).reverse

/-- `DbfDateField.decode` (fields.py:442-447) with
`utils.get_date` — Modelled from the spec: `utils.get_date` is in the
absent module `utils.py`; §4.2 specifies the decode rule
"charset-decode text \"yyyymmdd\"; all-blank → no value" failing on
unparsable calendar text.  A blank value gives `None`; otherwise the
eight bytes must be the digits of a valid calendar date. -/
def date_decode (raw : Bytes) : Except DbfError PyValue :=
  if pyStripWs raw = [] then .ok .noneVal
  else if raw.length = 8 ∧ raw.all isDigitCp then
    let y := natVal (raw.take 4)
    let m := natVal ((raw.drop 4).take 2)
    let d := natVal (raw.drop 6)
    if validDate y m d then .ok (.date y m d) else .error .invalidValue
  else .error .invalidValue

/-- `DbfDateTimeField.decode` (fields.py:482-493): assert the slice is 8
bytes, unpack two little-endian unsigned 32-bit words (JDN and
milliseconds); `JDN >= 1` builds
`datetime.fromordinal(jdn - 1721425)` (which raises `ValueError` when
the ordinal is not positive) plus the milliseconds, else `None`. -/
def datetime_decode (raw : Bytes) : Except DbfError PyValue :=
  if raw.length ≠ 8 then .error .assertError
  else
    let jdn := le32 raw
    let msecs := le32 (raw.drop 4)
    if 1 ≤ jdn then
      if 1721425 < jdn then .ok (.dateTime (jdn - 1721425) msecs)
      else .error .invalidValue
    else .ok .noneVal

/-- `DbfGeneralField.decode` / `DbfMemoField.decode` /
`DbfPictureField.decode` (fields.py:380-412): unpack a little-endian
unsigned 32-bit block id; block 0 short-circuits to an empty
`MemoData` of the class's memo type (a `str` for the memo field)
without touching the memo store; a nonzero block reads
`self.file.read(block)`, and `file` is `None` unless a memo file was
attached (`memo.py` is absent from the source tree, and no claim
exercises an attached store), which fails on attribute access. -/
def memoish_decode (memoType : Nat) (isMemoField : Bool) (raw : Bytes) :
    Except DbfError PyValue :=
  if raw.length ≠ 4 then .error .structError
  else if le32 raw = 0 then
    .ok (if isMemoField then .str [] else .memoData [] memoType)
  else .error .memoNotBound

/-- `MemoData` type tags of `memo.py` (absent module; the tags are only
carried around, never interpreted). -/
def memoTypeOf : FieldType → Nat
  | .memo => 1
  | .picture => 2
  | _ => 0

/-- Per-class dispatch of `decode` on the sliced raw value — the
polymorphic `field.decode(...)` call of the source. -/
def field_decode (fd : FieldDef) (raw : Bytes) : Except DbfError PyValue :=
  match fd.ftype with
  | .character => character_decode raw
  | .numeric => numeric_decode raw
  | .float => numeric_decode raw
  | .integer => integer_decode raw
  | .currency => currency_decode raw
  | .logical => logical_decode raw
  | .general => memoish_decode (memoTypeOf .general) false raw
  | .memo => memoish_decode (memoTypeOf .memo) true raw
  | .picture => memoish_decode (memoTypeOf .picture) false raw
  | .date => date_decode raw
  | .dateTime => datetime_decode raw

end Dbfpy

namespace Dbfpy

/-! ## Record decode (`record.py`, `DbfRecord`) -/

/-- A stored field value: either a decoded value or the
`utils.INVALID_VALUE` sentinel (modelled, per the spec's design note,
as an explicit sum). -/
inductive FieldValue where
  | valid (v : PyValue)
  | invalid
  deriving DecidableEq, Repr

/-- The value-slice of a field inside a raw record:
`record[start : start + length]`. -/
def fieldSlice (fd : FieldDef) (record : Bytes) : Bytes :=
  (record.drop fd.start).take fd.length

/-- Modelled from the spec: the error kinds §7 declares recoverable per
field (`InvalidValue`, `NumericOverflow`). -/
def isConversionError : DbfError → Bool
  | .invalidValue => true
  | .numericOverflow => true
  | _ => false

/-- Modelled from the spec: `DbfField.decode_from_record` (called at
record.py:134 but absent from `fields.py`; `utils.INVALID_VALUE` lives
in the absent `utils.py`) slices the raw record at
`[start, start + length)` and decodes it; per §4.4/§7 a per-value
conversion error becomes the INVALID sentinel when the field's
ignore-errors mode is set and propagates otherwise. -/
def decode_from_record (fd : FieldDef) (record : Bytes) :
    Except DbfError FieldValue :=
  match field_decode fd (fieldSlice fd record) with
  | .ok v => .ok (.valid v)
  | .error e =>
    if fd.ignore_errors && isConversionError e then .ok .invalid
    else .error e

/-- A `DbfRecord` (record.py:44-72): its index (None means "append"),
deletion flag and stored field values. -/
structure DbfRecord where
  index : Option Nat
  deleted : Bool
  field_data : List FieldValue
  deriving DecidableEq, Repr

/-- The list comprehension of record.py:134: decode every field of the
header from the raw record, propagating the first failure. -/
def decodeAll (fields : List FieldDef) (record : Bytes) :
    Except DbfError (List FieldValue) :=
  match fields with
  | [] => .ok []
  | fd :: rest => do
    let v ← decode_from_record fd record
    let vs ← decodeAll rest record
    .ok (v :: vs)

/-- Python 3 `string[0] == "*"` where `string` is `bytes`
(record.py:133): `string[0]` is an `int`, and an `int` never equals a
`str`, so the comparison is `False` for every first byte. -/
def pyIntEqStr (_b : Byte) (_s : String) : Bool := false

/-- `DbfRecord.from_string` (record.py:117-134): build the record from
the raw bytes — `string[0]` raises `IndexError` on an empty string;
the deletion flag is `string[0] == "*"` and the field data the decoded
values.  No validation of the first byte takes place. -/
def from_string (fields : List FieldDef) (string : Bytes)
    (index : Option Nat) : Except DbfError DbfRecord :=
  if string.isEmpty then .error .indexError
  else do
    let data ← decodeAll fields string
    .ok {
      index := index
      deleted := pyIntEqStr (string.getD 0 0) "*"
      field_data := data
    }

end Dbfpy

namespace Dbfpy

/-! ## Header (`header.py`, `DbfHeader`) -/

/-- A `DbfHeader` (header.py:43-46): signature, field list, derived
lengths, record count, table flag, code page, ignore-errors mode and
the changed flag.  (`last_update` is carried by the source but touched
by no claim; its calendar validity is checked where it matters, in
`DbfHeader.parse`.) -/
structure DbfHeader where
  signature : Byte
  fields : List FieldDef
  record_length : Nat
  record_count : Nat
  header_length : Nat
  flag : Byte
  code_page : Byte
  ignore_errors : Bool
  changed : Bool
  deriving DecidableEq, Repr

/-- `DbfHeader._calc_record_length` (header.py:248-250):
`1 + sum(field.length for field in self.fields)`. -/
def calc_record_length (fields : List FieldDef) : Nat :=
  1 + (fields.map (·.length)).sum

/-- `DbfHeader._calc_header_length` (header.py:252-258):
`32 + 32 * len(fields) + 1`, plus the 263-byte zero-filled backlink
room when the signature is the Visual FoxPro one (0x30). -/
def calc_header_length (signature : Byte) (fields : List FieldDef) : Nat :=
  32 + 32 * fields.length + 1 + (if signature = 0x30 then 263 else 0)

/-- `DbfHeader.__init__` (header.py:50-96): store the given attributes
(the ignore-errors property setter pushes the mode onto every field),
then — only when ignore-errors is off — require the given
`record_length` to equal the sum-derived one.  `header_length` is
stored as given and not recomputed. -/
def DbfHeader.init (fields : List FieldDef) (header_length : Nat := 0)
    (record_length : Nat := 1) (record_count : Nat := 0)
    (signature : Byte := 0x03) (flag : Byte := 0) (code_page : Byte := 0)
    (ignore_errors : Bool := false) : Except DbfError DbfHeader :=
  let fields := fields.map (fun fd => { fd with ignore_errors := ignore_errors })
  if ¬ignore_errors ∧ calc_record_length fields ≠ record_length then
    .error .recordLengthMismatch
  else
    .ok {
      signature := signature
      fields := fields
      record_length := record_length
      record_count := record_count
      header_length := header_length
      flag := flag
      code_page := code_page
      ignore_errors := ignore_errors
      changed := false
    }

/-- `DbfHeader.add_field` (header.py:287-332) on `DbfField` instance
arguments: raise `TypeError` (before touching anything) once
`record_count > 0`; otherwise append each field while growing
`record_length` by its length, then recompute `header_length` and set
the changed flag.  (The tuple-argument form constructs a `DbfField`
with `start = self.record_length` first and then follows the same
append; no claim distinguishes the two.)  The pair returned is the
mutated header together with the raised error, if any — mutation in
place raises before any change, so the error case returns the header
unchanged.  This is the loop body (header.py:326-327). -/
def add_field_step (acc : DbfHeader) (fd : FieldDef) : DbfHeader :=
  { acc with
    record_length := acc.record_length + fd.length
    fields := acc.fields ++ [fd] }

/-- `DbfHeader.add_field`, continued: the whole method. -/
def add_field (h : DbfHeader) (new_fields : List FieldDef) :
    DbfHeader × Option DbfError :=
  if h.record_count > 0 then (h, some .schemaFrozen)
  else
    let h' := new_fields.foldl add_field_step h
    ({ h' with
        header_length := calc_header_length h'.signature h'.fields
        changed := true }, none)

/-- The descriptor-reading loop of `DbfHeader.parse`
(header.py:152-166): read 32-byte chunks until a short read or a chunk
opening with the 0x0D terminator; parse each chunk (the source passes
the running offset `pos` for the `ignore_errors` argument, so the flag
is its truthiness), require the parsed `start` to equal the running
offset, and advance the offset to `start + length`. -/
def readFields (stream : Bytes) (pos : Nat) :
    Except DbfError (List FieldDef) :=
  if _h : stream.length < 32 then .ok []
  else if (stream.take 32).getD 0 0 = 0x0D then .ok []
  else do
    let field ← DbfFields.parse (stream.take 32) (decide (pos ≠ 0))
    if pos ≠ field.start then .error .fieldStartMismatch
    else do
      let rest ← readFields (stream.drop 32) (field.start + field.length)
      .ok (field :: rest)
termination_by stream.length
decreasing_by
  simp only [List.length_drop]
  omega

/-- `DbfHeader.parse` (header.py:121-178): fail unless 32 header bytes
are available; unpack `"< 4B I 2H 16x 2B 2x"` (signature, year, month,
day, record count, header length, record length, flag, code page);
normalize the two-digit year (`< 80` means 2000-based, else
1900-based) and build `datetime.date(year, month, day)`, which raises
on an invalid calendar triple; read the field descriptors from offset
32 with the running offset starting at 1; hand everything to the
constructor, whose ignore-errors mode defaults to off, so the
sum-derived record length is checked against the declared one.
`normYear` is the 2-digit year normalization (header.py:140-145). -/
def normYear (year : Nat) : Nat :=
  if year < 80 then year + 2000 else year + 1900

/-- `DbfHeader.parse`, continued: the whole classmethod. -/
def DbfHeader.parse (stream : Bytes) : Except DbfError DbfHeader :=
  if stream.length < 32 then .error .malformedHeader
  else
    if ¬validDate (normYear (stream.getD 1 0)) (stream.getD 2 0)
        (stream.getD 3 0) then
      .error .invalidValue
    else do
      let fields ← readFields (stream.drop 32) 1
      DbfHeader.init fields (le16 (stream.drop 8)) (le16 (stream.drop 10))
        (le32 (stream.drop 4)) (stream.getD 0 0) (stream.getD 28 0)
        (stream.getD 29 0) false

/-- `DbfHeader.index_of_field_name` (header.py:207-216): scan the
fields in order for an exact name match (the name already being
`bytes`); a miss raises `KeyError`. -/
def index_of_field_name (fields : List FieldDef) (name : Bytes) :
    Except DbfError Nat :=
  match fields with
  | [] => .error .keyError
  | fd :: rest =>
    if fd.name = name then .ok 0
    else (index_of_field_name rest name).map (· + 1)

/-- Python sequence index semantics: a negative index counts from the
end; out of range raises `IndexError`. -/
def pyIndex (n : Nat) (i : ℤ) : Option Nat :=
  if 0 ≤ i then (if i < (n : ℤ) then some i.toNat else none)
  else (if 0 ≤ (n : ℤ) + i then some ((n : ℤ) + i).toNat else none)

/-- `DbfRecord.__setitem__` (record.py:225-231): an `int` key takes the
first branch, which `return`s `self.field_data[key]` — a read, after
which the record is unchanged; any other key is assumed to be a field
name, and `self.field_data[header.index_of_field_name(key)] = value`
updates the stored list in place.  The result pairs the record
after the call with the value the `int` branch returned. -/
def record_setitem (header_fields : List FieldDef) (r : DbfRecord)
    (key : ℤ ⊕ Bytes) (value : PyValue) :
    Except DbfError (DbfRecord × Option FieldValue) :=
  match key with
  | .inl i =>
    match pyIndex r.field_data.length i with
    | some k => .ok (r, some (r.field_data.getD k .invalid))
    | none => .error .indexError
  | .inr name => do
    let idx ← index_of_field_name header_fields name
    if idx < r.field_data.length then
      .ok ({ r with field_data := r.field_data.set idx (.valid value) }, none)
    else .error .indexError

end Dbfpy

namespace Dbfpy

/-! ## Claim theorems -/

/-- C9: For every Logical field: decode maps the byte `'?'` to `-1`
(undetermined), any byte in `"NnFf "` to `False`, any byte in `"YyTt"`
to `True`, and fails with an InvalidValue-kind error on every other
byte; encode maps `True` to `'T'`, `-1` to `'?'`, and every other value
to `'F'`. -/
theorem claim_C9 :
    logical_decode [0x3F] = .ok (.pyInt (-1))
    ∧ (∀ b, b ∈ ([0x4E, 0x6E, 0x46, 0x66, 0x20] : List Nat) →
        logical_decode [b] = .ok (.pyBool false))
    ∧ (∀ b, b ∈ ([0x59, 0x79, 0x54, 0x74] : List Nat) →
        logical_decode [b] = .ok (.pyBool true))
    ∧ (∀ b : Byte,
        b ∉ ([0x3F, 0x4E, 0x6E, 0x46, 0x66, 0x20,
              0x59, 0x79, 0x54, 0x74] : List Nat) →
        logical_decode [b] = .error .invalidValue)
    ∧ logical_encode (.pyBool true) = [0x54]
    ∧ logical_encode (.pyInt (-1)) = [0x3F]
    ∧ (∀ v : PyValue, v ≠ .pyBool true → pyEqNegOne v = false →
        logical_encode v = [0x46]) := by
  refine ⟨by decide, ?_, ?_, ?_, by decide, by decide, ?_⟩
  · intro b hb
    fin_cases hb <;> decide
  · intro b hb
    fin_cases hb <;> decide
  · intro b hb
    simp only [List.mem_cons, List.not_mem_nil, or_false, not_or] at hb
    obtain ⟨h1, h2, h3, h4, h5, h6, h7, h8, h9, h10⟩ := hb
    simp [logical_decode, pyBytesIn_singleton, List.contains_cons,
      h1, h2, h3, h4, h5, h6, h7, h8, h9, h10]
  · intro v hv hneg
    simp [logical_encode, hv, hneg]

/-- Witness for C9 at concrete bytes and values. -/
theorem claim_C9_witness :
    logical_decode [0x20] = .ok (.pyBool false)
    ∧ logical_decode [0x59] = .ok (.pyBool true)
    ∧ logical_decode [0x58] = .error .invalidValue
    ∧ logical_encode (.str []) = [0x46] :=
  ⟨claim_C9.2.1 0x20 (by decide), claim_C9.2.2.1 0x59 (by decide),
    claim_C9.2.2.2.1 0x58 (by decide),
    claim_C9.2.2.2.2.2.2 (.str []) (by decide) (by decide)⟩

/-- C10: subscript assignment with an in-range integer index leaves the
record's stored field values unchanged (the `int` branch of
`__setitem__` returns the old value without storing), while assignment
by field name actually updates the stored value. -/
theorem claim_C10 (header_fields : List FieldDef) (r : DbfRecord)
    (i : ℤ) (k : Nat) (v : PyValue)
    (hk : pyIndex r.field_data.length i = some k)
    (name : Bytes) (idx : Nat)
    (hidx : index_of_field_name header_fields name = .ok idx)
    (hlt : idx < r.field_data.length) :
    record_setitem header_fields r (.inl i) v
      = .ok (r, some (r.field_data.getD k .invalid))
    ∧ record_setitem header_fields r (.inr name) v
      = .ok ({ r with field_data := r.field_data.set idx (.valid v) },
          none) := by
  constructor
  · simp [record_setitem, hk]
  · simp [record_setitem, hidx, hlt, Bind.bind, Except.bind]

/-- Witness for C10 on a two-field record. -/
theorem claim_C10_witness :
    record_setitem
      [{ ftype := .character, name := [65], start := 1, length := 1,
         decimal_count := 0, flag := 0, ai_next := 0, ai_step := 0,
         ignore_errors := false }]
      { index := none, deleted := false,
        field_data := [.valid (.pyInt 1), .valid (.pyInt 2)] }
      (.inl 0) (.pyInt 9)
      = .ok ({ index := none, deleted := false,
               field_data := [.valid (.pyInt 1), .valid (.pyInt 2)] },
          some (.valid (.pyInt 1)))
    ∧ record_setitem
      [{ ftype := .character, name := [65], start := 1, length := 1,
         decimal_count := 0, flag := 0, ai_next := 0, ai_step := 0,
         ignore_errors := false }]
      { index := none, deleted := false,
        field_data := [.valid (.pyInt 1), .valid (.pyInt 2)] }
      (.inr [65]) (.pyInt 9)
      = .ok ({ index := none, deleted := false,
               field_data := [.valid (.pyInt 9), .valid (.pyInt 2)] },
          none) :=
  claim_C10 _ _ 0 0 (.pyInt 9) (by decide) [65] 0 (by decide) (by decide)

end Dbfpy

namespace Dbfpy

/-- The append loop of `add_field` extends the fields by the new list. -/
theorem foldl_step_fields (fs : List FieldDef) (h : DbfHeader) :
    (fs.foldl add_field_step h).fields = h.fields ++ fs := by
  induction fs generalizing h with
  | nil => simp
  | cons fd rest ih =>
    rw [List.foldl_cons, ih]
    simp [add_field_step]

/-- The append loop of `add_field` grows `record_length` by the sum of
the new lengths. -/
theorem foldl_step_record_length (fs : List FieldDef) (h : DbfHeader) :
    (fs.foldl add_field_step h).record_length
      = h.record_length + (fs.map (·.length)).sum := by
  induction fs generalizing h with
  | nil => simp
  | cons fd rest ih =>
    rw [List.foldl_cons, ih]
    simp [add_field_step]
    omega

/-- The append loop of `add_field` touches no other header attribute. -/
theorem foldl_step_misc (fs : List FieldDef) (h : DbfHeader) :
    (fs.foldl add_field_step h).signature = h.signature
    ∧ (fs.foldl add_field_step h).record_count = h.record_count := by
  induction fs generalizing h with
  | nil => exact ⟨rfl, rfl⟩
  | cons fd rest ih =>
    rw [List.foldl_cons]
    obtain ⟨h1, h2⟩ := ih (add_field_step h fd)
    rw [h1, h2]
    exact ⟨rfl, rfl⟩

/-- C6: `add_field` fails with the SchemaFrozen-kind error whenever
`record_count > 0`, returning the header unchanged (the check comes
before any mutation), and whenever `record_count = 0` it succeeds,
appending the descriptors, growing `record_length` by their lengths
and recomputing `header_length`. -/
theorem claim_C6 (h : DbfHeader) (fs : List FieldDef) :
    (h.record_count > 0 → add_field h fs = (h, some .schemaFrozen))
    ∧ (h.record_count = 0 →
        (add_field h fs).2 = none
        ∧ (add_field h fs).1.fields = h.fields ++ fs
        ∧ (add_field h fs).1.record_length
            = h.record_length + (fs.map (·.length)).sum
        ∧ (add_field h fs).1.header_length
            = calc_header_length h.signature (h.fields ++ fs)) := by
  constructor
  · intro hpos
    simp [add_field, hpos]
  · intro hzero
    have h1 := foldl_step_fields fs h
    have h2 := foldl_step_record_length fs h
    obtain ⟨h3, _⟩ := foldl_step_misc fs h
    have hng : ¬h.record_count > 0 := by omega
    refine ⟨?_, ?_, ?_, ?_⟩ <;> simp [add_field, hng, h1, h2, h3]

/-- Witness for C6: a frozen header rejects a new field, an unfrozen
one accepts it. -/
theorem claim_C6_witness :
    (add_field
        { signature := 3, fields := [], record_length := 1,
          record_count := 5, header_length := 33, flag := 0,
          code_page := 0, ignore_errors := false, changed := false }
        [{ ftype := .character, name := [65], start := 1, length := 7,
           decimal_count := 0, flag := 0, ai_next := 0, ai_step := 0,
           ignore_errors := false }]).2 = some .schemaFrozen
    ∧ (add_field
        { signature := 3, fields := [], record_length := 1,
          record_count := 0, header_length := 33, flag := 0,
          code_page := 0, ignore_errors := false, changed := false }
        [{ ftype := .character, name := [65], start := 1, length := 7,
           decimal_count := 0, flag := 0, ai_next := 0, ai_step := 0,
           ignore_errors := false }]).1.record_length = 8 := by
  constructor
  · have := (claim_C6
      { signature := 3, fields := [], record_length := 1,
        record_count := 5, header_length := 33, flag := 0,
        code_page := 0, ignore_errors := false, changed := false }
      [{ ftype := .character, name := [65], start := 1, length := 7,
         decimal_count := 0, flag := 0, ai_next := 0, ai_step := 0,
         ignore_errors := false }]).1 (by decide)
    rw [this]
  · have := ((claim_C6
      { signature := 3, fields := [], record_length := 1,
        record_count := 0, header_length := 33, flag := 0,
        code_page := 0, ignore_errors := false, changed := false }
      [{ ftype := .character, name := [65], start := 1, length := 7,
         decimal_count := 0, flag := 0, ai_next := 0, ai_step := 0,
         ignore_errors := false }]).2 (by decide)).2.2.1
    rw [this]
    decide

end Dbfpy

namespace Dbfpy

/-- Setting the ignore-errors mode on every field keeps every length,
so the sum-derived record length is unchanged. -/
theorem calc_record_length_set_ignore (fields : List FieldDef) (b : Bool) :
    calc_record_length
        (fields.map (fun fd => { fd with ignore_errors := b }))
      = calc_record_length fields := by
  unfold calc_record_length
  rw [List.map_map]
  rfl

/-- Counterexample to C7 as stated: a header reachable by plain
construction (the `new=True` path of `dbf.py` builds exactly
`DbfHeader()`) carries the `header_length` it was given — 0 by default,
not `32 + 32 × 0 + 1` — and construction under ignore-errors accepts a
`record_length` different from `1 +` the sum of the field lengths. -/
theorem claim_C7_counterexample :
    DbfHeader.init [] = .ok
      { signature := 3, fields := [], record_length := 1,
        record_count := 0, header_length := 0, flag := 0,
        code_page := 0, ignore_errors := false, changed := false }
    ∧ (0 : Nat) ≠ calc_header_length 3 []
    ∧ DbfHeader.init [] 0 5 0 3 0 0 true = .ok
      { signature := 3, fields := [], record_length := 5,
        record_count := 0, header_length := 0, flag := 0,
        code_page := 0, ignore_errors := true, changed := false }
    ∧ (5 : Nat) ≠ calc_record_length [] := by
  refine ⟨by decide, by decide, by decide, by decide⟩

/-- C7 (amended): the record-length invariant
`record_length = 1 + sum of field lengths` holds for every header
constructed with ignore-errors off and is preserved by every successful
`add_field`, which also (re)establishes
`header_length = 32 + 32 × field_count + 1 (+ 263 for signature 0x30)`;
a header straight from the constructor, however, keeps whatever
`header_length` it was given (0 by default) until the first field-list
mutation recomputes it, and construction under ignore-errors skips the
record-length check. -/
theorem claim_C7 (fields : List FieldDef) (hl rl rc : Nat)
    (sig fl cp : Byte) (h : DbfHeader) (fs : List FieldDef)
    (h' : DbfHeader) :
    (∀ hd, DbfHeader.init fields hl rl rc sig fl cp false = .ok hd →
        hd.record_length = calc_record_length hd.fields)
    ∧ (add_field h fs = (h', none) →
        (h.record_length = calc_record_length h.fields →
          h'.record_length = calc_record_length h'.fields)
        ∧ h'.header_length = calc_header_length h'.signature h'.fields) := by
  constructor
  · intro hd hok
    simp only [DbfHeader.init] at hok
    split at hok
    · exact Except.noConfusion hok
    · rename_i hcond
      push_neg at hcond
      injection hok with heq
      subst heq
      simpa using (hcond (by simp)).symm
  · intro hadd
    simp only [add_field] at hadd
    split at hadd
    · exact absurd (congrArg Prod.snd hadd) (by simp)
    · have hfst : _ = h' := congrArg Prod.fst hadd
      subst hfst
      have h1 := foldl_step_fields fs h
      have h2 := foldl_step_record_length fs h
      constructor
      · intro hinv
        show (fs.foldl add_field_step h).record_length
          = calc_record_length (fs.foldl add_field_step h).fields
        rw [h2, h1, hinv]
        simp [calc_record_length, List.map_append, List.sum_append]
        omega
      · rfl

end Dbfpy

namespace Dbfpy

/-- Witness for C7: a default-constructed header satisfies the
record-length invariant, and adding one 7-byte character field to it
re-establishes both derived lengths. -/
theorem claim_C7_witness :
    (({ signature := 3, fields := [], record_length := 1,
        record_count := 0, header_length := 0, flag := 0, code_page := 0,
        ignore_errors := false, changed := false } : DbfHeader).record_length
      = calc_record_length
          ({ signature := 3, fields := [], record_length := 1,
             record_count := 0, header_length := 0, flag := 0,
             code_page := 0, ignore_errors := false,
             changed := false } : DbfHeader).fields)
    ∧ (({ signature := 3,
          fields := [{ ftype := .character, name := [65], start := 1,
                       length := 7, decimal_count := 0, flag := 0,
                       ai_next := 0, ai_step := 0,
                       ignore_errors := false }],
          record_length := 8, record_count := 0, header_length := 65,
          flag := 0, code_page := 0, ignore_errors := false,
          changed := true } : DbfHeader).record_length
        = calc_record_length
            ({ signature := 3,
               fields := [{ ftype := .character, name := [65], start := 1,
                            length := 7, decimal_count := 0, flag := 0,
                            ai_next := 0, ai_step := 0,
                            ignore_errors := false }],
               record_length := 8, record_count := 0, header_length := 65,
               flag := 0, code_page := 0, ignore_errors := false,
               changed := true } : DbfHeader).fields) := by
  refine ⟨(claim_C7 [] 0 1 0 3 0 0
      { signature := 3, fields := [], record_length := 1,
        record_count := 0, header_length := 0, flag := 0, code_page := 0,
        ignore_errors := false, changed := false }
      [{ ftype := .character, name := [65], start := 1, length := 7,
         decimal_count := 0, flag := 0, ai_next := 0, ai_step := 0,
         ignore_errors := false }]
      { signature := 3,
        fields := [{ ftype := .character, name := [65], start := 1,
                     length := 7, decimal_count := 0, flag := 0,
                     ai_next := 0, ai_step := 0, ignore_errors := false }],
        record_length := 8, record_count := 0, header_length := 65,
        flag := 0, code_page := 0, ignore_errors := false,
        changed := true }).1 _ (by decide),
    ((claim_C7 [] 0 1 0 3 0 0
      { signature := 3, fields := [], record_length := 1,
        record_count := 0, header_length := 0, flag := 0, code_page := 0,
        ignore_errors := false, changed := false }
      [{ ftype := .character, name := [65], start := 1, length := 7,
         decimal_count := 0, flag := 0, ai_next := 0, ai_step := 0,
         ignore_errors := false }]
      { signature := 3,
        fields := [{ ftype := .character, name := [65], start := 1,
                     length := 7, decimal_count := 0, flag := 0,
                     ai_next := 0, ai_step := 0, ignore_errors := false }],
        record_length := 8, record_count := 0, header_length := 65,
        flag := 0, code_page := 0, ignore_errors := false,
        changed := true }).2 (by decide)).1 (by decide)⟩

end Dbfpy

namespace Dbfpy

/-- Counterexample to C1 as stated: the first record byte is never
validated.  A record whose first byte is `0x58` (neither space nor
asterisk) decodes successfully — with `deleted = false` — instead of
failing with a MalformedRecord-kind error, and even a record whose
first byte is `'*'` (0x2A) decodes with `deleted = false`, because
`string[0] == "*"` compares an `int` with a `str`. -/
theorem claim_C1_counterexample :
    from_string
      [{ ftype := .character, name := [65], start := 1, length := 1,
         decimal_count := 0, flag := 0, ai_next := 0, ai_step := 0,
         ignore_errors := false }] [0x58, 0x41] none
      = .ok { index := none, deleted := false,
              field_data := [.valid (.str [0x41])] }
    ∧ from_string
      [{ ftype := .character, name := [65], start := 1, length := 1,
         decimal_count := 0, flag := 0, ai_next := 0, ai_step := 0,
         ignore_errors := false }] [0x2A, 0x41] none
      = .ok { index := none, deleted := false,
              field_data := [.valid (.str [0x41])] } := by
  constructor <;> rfl

/-- C1 (amended): record decode performs no deletion-flag check — it
never fails on account of the first byte, and every successfully
decoded record carries `deleted = false` whatever its first byte is,
because the source compares a bytes element (an `int`) with the `str`
`"*"`, which is always false in Python 3. -/
theorem claim_C1 (fields : List FieldDef) (string : Bytes)
    (index : Option Nat) :
    (∀ r, from_string fields string index = .ok r → r.deleted = false)
    ∧ (∀ b0 rest data, decodeAll fields (b0 :: rest) = .ok data →
        from_string fields (b0 :: rest) index
          = .ok { index := index, deleted := false, field_data := data }) := by
  constructor
  · intro r hr
    simp only [from_string] at hr
    split at hr
    · exact Except.noConfusion hr
    · cases hda : decodeAll fields string with
      | error e =>
        rw [hda] at hr
        exact Except.noConfusion hr
      | ok data =>
        rw [hda] at hr
        simp only [Bind.bind, Except.bind] at hr
        injection hr with heq
        rw [← heq]
        rfl
  · intro b0 rest data hda
    simp only [from_string, List.isEmpty_cons, Bind.bind, Except.bind,
      hda, pyIntEqStr]
    rfl

/-- Witness for C1 on a one-character-field record whose first byte is
`0x58`. -/
theorem claim_C1_witness :
    from_string
      [{ ftype := .character, name := [65], start := 1, length := 1,
         decimal_count := 0, flag := 0, ai_next := 0, ai_step := 0,
         ignore_errors := false }] [0x58, 0x41] none
      = .ok { index := none, deleted := false,
              field_data := [.valid (.str [0x41])] } :=
  (claim_C1
    [{ ftype := .character, name := [65], start := 1, length := 1,
       decimal_count := 0, flag := 0, ai_next := 0, ai_step := 0,
       ignore_errors := false }] [0x58, 0x41] none).2 0x58 [0x41]
    [.valid (.str [0x41])] (by rfl)

end Dbfpy

namespace Dbfpy

/-- A field whose raw slice decodes succeeds in `decode_from_record`
whatever its ignore-errors mode is. -/
theorem decode_from_record_ok (fd : FieldDef) (s : Bytes) (v : PyValue)
    (h : field_decode fd (fieldSlice fd s) = .ok v) :
    decode_from_record fd s = .ok (.valid v) := by
  simp [decode_from_record, h]

/-- When every field of the list decodes, the whole list decodes. -/
theorem decodeAll_ok_of_forall (fds : List FieldDef) (s : Bytes)
    (h : ∀ fd' ∈ fds, ∃ v, field_decode fd' (fieldSlice fd' s) = .ok v) :
    ∃ l, decodeAll fds s = .ok l := by
  induction fds with
  | nil => exact ⟨[], rfl⟩
  | cons fd rest ih =>
    obtain ⟨v, hv⟩ := h fd (List.mem_cons_self fd rest)
    obtain ⟨l, hl⟩ := ih (fun fd' hfd' => h fd' (List.mem_cons_of_mem fd hfd'))
    exact ⟨.valid v :: l,
      by simp [decodeAll, decode_from_record_ok fd s v hv, hl,
        Bind.bind, Except.bind]⟩

/-- The list comprehension splits over a concatenation. -/
theorem decodeAll_append (xs ys : List FieldDef) (s : Bytes) (l1 : List FieldValue)
    (h1 : decodeAll xs s = .ok l1) :
    decodeAll (xs ++ ys) s
      = (decodeAll ys s).map (fun l2 => l1 ++ l2) := by
  induction xs generalizing l1 with
  | nil =>
    simp only [decodeAll] at h1
    injection h1 with heq
    subst heq
    simp only [List.nil_append]
    cases h2 : decodeAll ys s <;> simp [Except.map, h2]
  | cons fd rest ih =>
    simp only [decodeAll, Bind.bind, Except.bind] at h1
    cases hfd : decode_from_record fd s with
    | error e =>
      rw [hfd] at h1
      exact Except.noConfusion h1
    | ok v =>
      rw [hfd] at h1
      cases hrest : decodeAll rest s with
      | error e =>
        rw [hrest] at h1
        exact Except.noConfusion h1
      | ok l =>
        rw [hrest] at h1
        injection h1 with heq
        subst heq
        show decodeAll (fd :: (rest ++ ys)) s = _
        simp only [decodeAll, Bind.bind, Except.bind, hfd, ih l hrest]
        cases h2 : decodeAll ys s <;> simp [Except.map, h2]

/-- C2: when one field's value conversion fails with a conversion-kind
error (InvalidValue / NumericOverflow) and every other field decodes:
with the ignore-errors mode on (the header's setter pushes the mode
onto every field), the record still decodes, that field's value being
the sentinel INVALID marker and all remaining fields their decoded
values; with the mode off, the error propagates and aborts the whole
record decode.  (`decode_from_record` is modelled from the spec, the
method being absent from the source tree's `fields.py`.) -/
theorem claim_C2 (pre post : List FieldDef) (fd : FieldDef)
    (string : Bytes) (index : Option Nat) (e : DbfError)
    (l1 l2 : List FieldValue)
    (hfail : field_decode fd (fieldSlice fd string) = .error e)
    (hconv : isConversionError e = true)
    (hl1 : decodeAll pre string = .ok l1)
    (hl2 : decodeAll post string = .ok l2)
    (hne : string ≠ []) :
    ((∀ fd' ∈ pre ++ fd :: post, fd'.ignore_errors = true) →
      from_string (pre ++ fd :: post) string index
        = .ok { index := index, deleted := false,
                field_data := l1 ++ .invalid :: l2 })
    ∧ ((∀ fd' ∈ pre ++ fd :: post, fd'.ignore_errors = false) →
      from_string (pre ++ fd :: post) string index = .error e) := by
  obtain ⟨b0, rest, rfl⟩ := List.exists_cons_of_ne_nil hne
  constructor
  · intro hflags
    have hfd_flag : fd.ignore_errors = true :=
      hflags fd (by simp)
    have hmid : decode_from_record fd (b0 :: rest) = .ok .invalid := by
      simp [decode_from_record, hfail, hfd_flag, hconv]
    have hall : decodeAll (pre ++ fd :: post) (b0 :: rest)
        = .ok (l1 ++ .invalid :: l2) := by
      rw [decodeAll_append pre (fd :: post) _ l1 hl1]
      simp only [decodeAll, Bind.bind, Except.bind, hmid, hl2]
      rfl
    simp only [from_string, List.isEmpty_cons, Bind.bind, Except.bind,
      hall, pyIntEqStr]
    rfl
  · intro hflags
    have hfd_flag : fd.ignore_errors = false :=
      hflags fd (by simp)
    have hmid : decode_from_record fd (b0 :: rest) = .error e := by
      simp [decode_from_record, hfail, hfd_flag]
    have hall : decodeAll (pre ++ fd :: post) (b0 :: rest)
        = .error e := by
      rw [decodeAll_append pre (fd :: post) _ l1 hl1]
      simp only [decodeAll, Bind.bind, Except.bind, hmid]
      rfl
    simp only [from_string, List.isEmpty_cons, Bind.bind, Except.bind, hall]
    rfl

/-- Witness for C2: a logical field holding the invalid byte `0x58`
between two character fields, decoded with ignore-errors on and off. -/
theorem claim_C2_witness :
    from_string
      [{ ftype := .character, name := [65], start := 1, length := 1,
         decimal_count := 0, flag := 0, ai_next := 0, ai_step := 0,
         ignore_errors := true },
       { ftype := .logical, name := [66], start := 2, length := 1,
         decimal_count := 0, flag := 0, ai_next := 0, ai_step := 0,
         ignore_errors := true },
       { ftype := .character, name := [67], start := 3, length := 1,
         decimal_count := 0, flag := 0, ai_next := 0, ai_step := 0,
         ignore_errors := true }] [0x20, 0x41, 0x58, 0x42] none
      = .ok { index := none, deleted := false,
              field_data := [.valid (.str [0x41]), .invalid,
                .valid (.str [0x42])] }
    ∧ from_string
      [{ ftype := .character, name := [65], start := 1, length := 1,
         decimal_count := 0, flag := 0, ai_next := 0, ai_step := 0,
         ignore_errors := false },
       { ftype := .logical, name := [66], start := 2, length := 1,
         decimal_count := 0, flag := 0, ai_next := 0, ai_step := 0,
         ignore_errors := false },
       { ftype := .character, name := [67], start := 3, length := 1,
         decimal_count := 0, flag := 0, ai_next := 0, ai_step := 0,
         ignore_errors := false }] [0x20, 0x41, 0x58, 0x42] none
      = .error .invalidValue := by
  constructor
  · exact
      (claim_C2
        [{ ftype := .character, name := [65], start := 1, length := 1,
           decimal_count := 0, flag := 0, ai_next := 0, ai_step := 0,
           ignore_errors := true }]
        [{ ftype := .character, name := [67], start := 3, length := 1,
           decimal_count := 0, flag := 0, ai_next := 0, ai_step := 0,
           ignore_errors := true }]
        { ftype := .logical, name := [66], start := 2, length := 1,
          decimal_count := 0, flag := 0, ai_next := 0, ai_step := 0,
          ignore_errors := true } [0x20, 0x41, 0x58, 0x42] none
        .invalidValue [.valid (.str [0x41])] [.valid (.str [0x42])]
        (by rfl) (by rfl) (by rfl) (by rfl) (by decide)).1
      (by intro fd' hfd'; fin_cases hfd' <;> rfl)
  · exact
      (claim_C2
        [{ ftype := .character, name := [65], start := 1, length := 1,
           decimal_count := 0, flag := 0, ai_next := 0, ai_step := 0,
           ignore_errors := false }]
        [{ ftype := .character, name := [67], start := 3, length := 1,
           decimal_count := 0, flag := 0, ai_next := 0, ai_step := 0,
           ignore_errors := false }]
        { ftype := .logical, name := [66], start := 2, length := 1,
          decimal_count := 0, flag := 0, ai_next := 0, ai_step := 0,
          ignore_errors := false } [0x20, 0x41, 0x58, 0x42] none
        .invalidValue [.valid (.str [0x41])] [.valid (.str [0x42])]
        (by rfl) (by rfl) (by rfl) (by rfl) (by decide)).2
      (by intro fd' hfd'; fin_cases hfd' <;> rfl)

end Dbfpy

namespace Dbfpy

/-- Every code point printed for a decimal digit lies in `'0'..'9'`. -/
theorem natDigitsGo_digits (fuel m : Nat) :
    ∀ c ∈ natDigitsGo fuel m, 48 ≤ c ∧ c ≤ 57 := by
  induction fuel generalizing m with
  | zero => intro c hc; exact absurd hc (List.not_mem_nil c)
  | succ fuel ih =>
    intro c hc
    simp only [natDigitsGo] at hc
    split at hc
    · rename_i hm
      simp only [List.mem_singleton] at hc
      omega
    · rename_i hm
      rcases List.mem_append.mp hc with h | h
      · exact ih (m / 10) c h
      · simp only [List.mem_singleton] at h
        have : m % 10 < 10 := Nat.mod_lt m (by omega)
        omega

/-- The dot after a dot-free prefix is found right after it. -/
theorem findIdx?_dot (l1 l2 : PyStr) (h : ∀ c ∈ l1, c ≠ 46) :
    List.findIdx? (· == 46) (l1 ++ 46 :: l2) = some l1.length := by
  induction l1 with
  | nil => simp [List.findIdx?_cons]
  | cons c cs ih =>
    have hc : (c == 46) = false := by
      simpa using h c (List.mem_cons_self c cs)
    simp [List.findIdx?_cons, hc, List.findIdx?_succ,
      ih (fun c' hc' => h c' (List.mem_cons_of_mem c hc'))]

/-- `str.find` of the dot over text that opens with dot-free characters
finds the dot right after them. -/
theorem pyFind_prefix_dot (l1 l2 : PyStr) (h : ∀ c ∈ l1, c ≠ 46) :
    pyFind (l1 ++ 46 :: l2) 46 = (l1.length : ℤ) := by
  simp [pyFind, findIdx?_dot l1 l2 h]

/-- `str.find` of the dot over dot-free text misses. -/
theorem pyFind_no_dot (l : PyStr) (h : ∀ c ∈ l, c ≠ 46) :
    pyFind l 46 = -1 := by
  have : List.findIdx? (· == 46) l = none := by
    rw [List.findIdx?_eq_none_iff]
    intro c hc
    simpa using h c hc
  simp [pyFind, this]

/-- The sign-and-integer prefix of the formatted text is dot-free. -/
theorem ffCore_sign_digits_no_dot (dc : Nat) (n : ℤ) :
    ∀ c ∈ (if n < 0 then [45] else []) ++ natDigits (n.natAbs / 10 ^ dc),
      c ≠ 46 := by
  intro c hc
  rcases List.mem_append.mp hc with h | h
  · split at h
    · simp only [List.mem_singleton] at h
      omega
    · exact absurd h (List.not_mem_nil c)
  · have := natDigitsGo_digits _ _ c h
    omega

/-- With a positive decimal count the dot of the formatted core sits at
index `intPartLen`. -/
theorem ffCore_find_dot (dc : Nat) (n : ℤ) (hdc : 0 < dc) :
    pyFind (ffCore dc n) 46 = (intPartLen dc n : ℤ) := by
  have hdc' : ¬dc = 0 := by omega
  have h := pyFind_prefix_dot
    ((if n < 0 then [45] else []) ++ natDigits (n.natAbs / 10 ^ dc))
    (padZeros dc (n.natAbs % 10 ^ dc)) (ffCore_sign_digits_no_dot dc n)
  simp only [ffCore, hdc', if_false, List.append_assoc] at *
  rw [h]
  simp only [intPartLen, List.length_append, natDigits]
  split <;> simp

/-- With decimal count 0 the formatted core has no dot at all. -/
theorem ffCore_find_dot_zero (n : ℤ) :
    pyFind (ffCore 0 n) 46 = -1 := by
  apply pyFind_no_dot
  intro c hc
  have hc' : c ∈ (if n < 0 then [45] else [])
      ++ natDigits (n.natAbs / 10 ^ 0) := by
    simpa [ffCore] using hc
  exact ffCore_sign_digits_no_dot 0 n c hc'

/-- An overflowing formatted text has no space padding: it is its core. -/
theorem formatFixed_of_over (w dc : Nat) (n : ℤ)
    (h : (formatFixed w dc n).length > w) :
    formatFixed w dc n = ffCore dc n := by
  unfold formatFixed at *
  simp only [List.length_append, List.length_replicate] at h
  have : w - (ffCore dc n).length = 0 := by omega
  rw [this]
  simp

end Dbfpy

namespace Dbfpy

/-- Counterexample to C3 as stated: at `length = 3`, `decimal_count = 1`
and value `123.4` the formatted text `"123.4"` exceeds the width and
its decimal point sits at index 3 — not within the truncated width
`[0, 3)` — yet encode succeeds with the truncation `"123"` instead of
failing with NumericOverflow. -/
theorem claim_C3_counterexample :
    formatFixed 3 1 1234 = [49, 50, 51, 46, 52]
    ∧ (formatFixed 3 1 1234).length > 3
    ∧ pyFind (formatFixed 3 1 1234) 46 = 3
    ∧ ¬pyFind (formatFixed 3 1 1234) 46 < (3 : ℤ)
    ∧ numeric_encode 3 1 1234 = .ok [49, 50, 51] := by
  refine ⟨by decide, by decide, by decide, by decide, by decide⟩

/-- C3 (amended): encode formats the value as `"%*.*f"`; when the text
overflows the field width, encode succeeds with the text truncated to
`length` bytes exactly when the decimal point lies at an index `≤
length` — within the truncated width or immediately after it,
equivalently when the sign-plus-integer-digits part fits — and fails
with a NumericOverflow-kind error otherwise, including the whole
no-decimal-point case `decimal_count = 0`. -/
theorem claim_C3 (length dc : Nat) (n : ℤ)
    (hover : (formatFixed length dc n).length > length) :
    (dc = 0 → numeric_encode length dc n = .error .numericOverflow)
    ∧ (0 < dc →
        (intPartLen dc n ≤ length →
          numeric_encode length dc n
            = .ok ((formatFixed length dc n).take length))
        ∧ (length < intPartLen dc n →
          numeric_encode length dc n = .error .numericOverflow)) := by
  have hcore := formatFixed_of_over length dc n hover
  constructor
  · rintro rfl
    have hfind : pyFind (formatFixed length 0 n) 46 = -1 := by
      rw [hcore]; exact ffCore_find_dot_zero n
    simp only [numeric_encode, if_pos hover, hfind]
    rw [if_pos (by omega)]
  · intro hdc
    have hfind : pyFind (formatFixed length dc n) 46
        = (intPartLen dc n : ℤ) := by
      rw [hcore]; exact ffCore_find_dot dc n hdc
    constructor
    · intro hle
      simp only [numeric_encode, if_pos hover, hfind]
      rw [if_neg (by omega)]
    · intro hgt
      simp only [numeric_encode, if_pos hover, hfind]
      rw [if_pos (by omega)]

/-- Witness for C3: truncation keeps `"1234.5"` at width 4
(`"1234"`), and both a too-long integer part (`"123.4"` at width 2)
and the `decimal_count = 0` overflow (`"1234"` at width 3) fail. -/
theorem claim_C3_witness :
    numeric_encode 4 1 12345 = .ok [49, 50, 51, 52]
    ∧ numeric_encode 2 1 1234 = .error .numericOverflow
    ∧ numeric_encode 3 0 1234 = .error .numericOverflow := by
  refine ⟨?_, ?_, ?_⟩
  · have := ((claim_C3 4 1 12345 (by decide)).2 (by decide)).1 (by decide)
    rw [this]
    decide
  · exact ((claim_C3 2 1 1234 (by decide)).2 (by decide)).2 (by decide)
  · exact (claim_C3 3 0 1234 (by decide)).1 rfl

end Dbfpy

namespace Dbfpy

/-- Counterexample to C4 as stated: unparsable non-empty numeric text
decodes to `0.0` with no error at all (the `ValueError` is swallowed),
and text without a decimal point still decodes to a Python `float`,
not an integer. -/
theorem claim_C4_counterexample :
    numeric_decode [0x61, 0x62, 0x63] = .ok (.pyFloat 0)
    ∧ numeric_decode [0x34, 0x32] = .ok (.pyFloat 42)
    ∧ (PyValue.pyFloat 42) ≠ (PyValue.pyInt 42) := by
  refine ⟨rfl, ?_, by decide⟩
  norm_num [numeric_decode, pyFloat?, pyFloatCore, natVal, pyStrip,
    isPadByte, isDigitCp]

/-- C4 (amended): decode strips space/NUL padding from both ends and
parses the remaining text with `float()` — integer-looking text also
yields a float — and never fails: an empty (all-padding) raw value and
unparsable text both decode to `0.0` rather than raising an
InvalidValue-kind error. -/
theorem claim_C4 (raw : Bytes) :
    (∃ q, numeric_decode raw = .ok (.pyFloat q))
    ∧ (pyFloat? (pyStrip raw) = none →
        numeric_decode raw = .ok (.pyFloat 0))
    ∧ (∀ q, pyFloat? (pyStrip raw) = some q →
        numeric_decode raw = .ok (.pyFloat q))
    ∧ ((∀ b ∈ raw, isPadByte b = true) →
        numeric_decode raw = .ok (.pyFloat 0)) := by
  refine ⟨?_, ?_, ?_, ?_⟩
  · cases h : pyFloat? (pyStrip raw) with
    | none => exact ⟨0, by simp [numeric_decode, h]⟩
    | some q => exact ⟨q, by simp [numeric_decode, h]⟩
  · intro h
    simp [numeric_decode, h]
  · intro q h
    simp [numeric_decode, h]
  · intro h
    have h1 : raw.dropWhile isPadByte = [] :=
      List.dropWhile_eq_nil_iff.mpr h
    have h2 : pyStrip raw = [] := by simp [pyStrip, h1]
    simp [numeric_decode, h2, pyFloat?, pyFloatCore]

/-- Witness for C4: an all-padding value decodes to `0.0`, and padded
`"1.5"` decodes to the rational `3/2`. -/
theorem claim_C4_witness :
    numeric_decode [0x20, 0x00, 0x20] = .ok (.pyFloat 0)
    ∧ numeric_decode [0x20, 0x31, 0x2E, 0x35] = .ok (.pyFloat (3 / 2)) :=
  ⟨(claim_C4 [0x20, 0x00, 0x20]).2.2.2 (by decide),
   (claim_C4 [0x20, 0x31, 0x2E, 0x35]).2.2.1 (3 / 2)
     (by norm_num [pyFloat?, pyFloatCore, pyStrip, isPadByte,
       isDigitCp, natVal])⟩

end Dbfpy

namespace Dbfpy

/-- `leWrite` produces exactly `k` bytes. -/
theorem leWrite_length (k n : Nat) : (leWrite k n).length = k := by
  induction k generalizing n with
  | zero => rfl
  | succ k ih => simp [leWrite, ih]

/-- Reading back a little-endian write recovers the value modulo the
word size, whatever follows it. -/
theorem leRead_leWrite (k n : Nat) (rest : Bytes) :
    leRead k (leWrite k n ++ rest) = n % 2 ^ (8 * k) := by
  induction k generalizing n with
  | zero => simp [leRead, leWrite, Nat.mod_one]
  | succ k ih =>
    show n % 256 + 256 * leRead k (leWrite k (n / 256) ++ rest) = _
    rw [ih (n / 256)]
    have h2 : 2 ^ (8 * (k + 1)) = 256 * 2 ^ (8 * k) := by ring
    rw [h2, Nat.mod_mul]

/-- `le32` of a 4-byte little-endian write of a 32-bit value. -/
theorem le32_leWrite (n : Nat) (rest : Bytes) (h : n < 2 ^ 32) :
    le32 (leWrite 4 n ++ rest) = n := by
  rw [le32, leRead_leWrite]
  exact Nat.mod_eq_of_lt h

/-- `unzfill` recovers a NUL-free name from its zero padding. -/
theorem unzfill_append_zeros (nm : Bytes) (k : Nat) (h0 : 0 ∉ nm)
    (hk : 0 < k) :
    unzfill (nm ++ List.replicate k 0) = nm := by
  induction nm with
  | nil =>
    cases k with
    | zero => omega
    | succ k => simp [unzfill, List.replicate_succ]
  | cons a t ih =>
    have ha : a ≠ 0 := fun h => h0 (h ▸ List.mem_cons_self a t)
    have ht : 0 ∉ t := fun h => h0 (List.mem_cons_of_mem a h)
    have hpa : (decide (a ≠ 0)) = true := by simp [ha]
    simp only [unzfill, List.cons_append, List.takeWhile_cons, hpa,
      if_true]
    simp only [unzfill] at ih
    exact congrArg (a :: ·) (ih ht)

/-- The registry maps every class's own tag back to the class. -/
theorem get_typeCode (ft : FieldType) :
    DbfFields.get ft.typeCode = .ok ft := by
  cases ft <;> rfl

end Dbfpy

namespace Dbfpy

/-- Counterexample to C5 as stated: a syntactically valid descriptor
whose reserved byte 24 is nonzero parses fine, but serializing the
parsed descriptor zeroes bytes 24..31, so the round-trip is not
byte-identical. -/
theorem claim_C5_counterexample :
    DbfFields.parse
      ([65, 0, 0, 0, 0, 0, 0, 0, 0, 0, 0] ++ [0x43] ++ [1, 0, 0, 0] ++
        [1, 0, 0] ++ [0, 0, 0, 0] ++ [0] ++ [1, 0, 0, 0, 0, 0, 0, 0])
      false
      = .ok { ftype := .character, name := [65], start := 1, length := 1,
              decimal_count := 0, flag := 0, ai_next := 0, ai_step := 0,
              ignore_errors := false }
    ∧ FieldDef.to_bytes
      { ftype := .character, name := [65], start := 1, length := 1,
        decimal_count := 0, flag := 0, ai_next := 0, ai_step := 0,
        ignore_errors := false }
      ≠ ([65, 0, 0, 0, 0, 0, 0, 0, 0, 0, 0] ++ [0x43] ++ [1, 0, 0, 0] ++
        [1, 0, 0] ++ [0, 0, 0, 0] ++ [0] ++ [1, 0, 0, 0, 0, 0, 0, 0]) := by
  refine ⟨by decide, by decide⟩

/-- C5 (amended): the parse/serialize round-trip is exact on the
well-formed descriptors — stored name NUL-free, uppercase, at most 10
bytes and NUL-padded; an uppercase registered tag byte; the length byte
positive for variable-length types and equal to the class's fixed
length otherwise; decimal-count byte 4 for Currency; reserved bytes
24..31 zero.  For every such descriptor, `to_bytes` emits exactly 32
bytes and `DbfFields.parse` recovers the field definition exactly, so
serializing the parse reproduces the bytes and parsing the
serialization reproduces the descriptor.  (Outside this family the
round-trip is not byte-identical: parse discards the reserved bytes —
see the counterexample — and normalizes the name.) -/
theorem claim_C5 (ft : FieldType) (nm : Bytes)
    (start len dc flag ai_next ai_step : Nat) (ig : Bool)
    (hnm : nm.length ≤ 10) (h0 : 0 ∉ nm)
    (hup : nm.map byteUpper = nm)
    (hlenv : ft.fixedLength = none → 0 < len ∧ len < 256)
    (hlenf : ∀ fl, ft.fixedLength = some fl → len = fl)
    (hdc : dc < 256) (hdcY : ft = .currency → dc = 4)
    (hstart : start < 2 ^ 32) (hflag : flag < 256)
    (hai : ai_next < 2 ^ 32) (hstep : ai_step < 256) :
    (FieldDef.to_bytes
        ⟨ft, nm, start, len, dc, flag, ai_next, ai_step, ig⟩).length = 32
    ∧ DbfFields.parse
        (FieldDef.to_bytes ⟨ft, nm, start, len, dc, flag, ai_next, ai_step, ig⟩)
        ig
      = .ok ⟨ft, nm, start, len, dc, flag, ai_next, ai_step, ig⟩ := by
  have hlen256 : len < 256 := by
    cases hfl : ft.fixedLength with
    | none => exact (hlenv hfl).2
    | some fl =>
      have := hlenf fl hfl
      subst this
      cases ft <;> simp [FieldType.fixedLength] at hfl <;> omega
  have hbR : FieldDef.to_bytes ⟨ft, nm, start, len, dc, flag, ai_next,
        ai_step, ig⟩
      = nm ++ (List.replicate (11 - nm.length) 0 ++ ([ft.typeCode]
        ++ (leWrite 4 start ++ ([len % 256, dc % 256, flag % 256]
          ++ (leWrite 4 ai_next ++ ([ai_step % 256]
            ++ List.replicate 8 0)))))) := by
    simp only [FieldDef.to_bytes, List.append_assoc]
  have e_len :
      (FieldDef.to_bytes
        ⟨ft, nm, start, len, dc, flag, ai_next, ai_step, ig⟩).length = 32 := by
    rw [hbR]
    simp [leWrite_length]
    omega
  refine ⟨e_len, ?_⟩
  have e_tag :
      (FieldDef.to_bytes
        ⟨ft, nm, start, len, dc, flag, ai_next, ai_step, ig⟩).getD 11 0
      = FieldType.typeCode ft := by
    rw [hbR,
      List.getD_append_right _ _ _ _ (by omega : nm.length ≤ 11),
      List.getD_append_right _ _ _ _
        (by rw [List.length_replicate] :
          (List.replicate (11 - nm.length) 0).length ≤ 11 - nm.length),
      show 11 - nm.length - (List.replicate (11 - nm.length) 0).length = 0
        from by rw [List.length_replicate]; omega]
    rfl
  have e_name :
      unzfill ((FieldDef.to_bytes
        ⟨ft, nm, start, len, dc, flag, ai_next, ai_step, ig⟩).take 11)
      = nm := by
    rw [hbR, List.take_append_eq_append_take,
      List.take_append_eq_append_take,
      List.take_of_length_le (by omega : nm.length ≤ 11),
      List.take_of_length_le
        (by rw [List.length_replicate] :
          (List.replicate (11 - nm.length) 0).length ≤ 11 - nm.length),
      show 11 - nm.length - (List.replicate (11 - nm.length) 0).length = 0
        from by rw [List.length_replicate]; omega,
      List.take_zero, List.append_nil]
    exact unzfill_append_zeros nm _ h0 (by omega)
  have e_start :
      le32 ((FieldDef.to_bytes
        ⟨ft, nm, start, len, dc, flag, ai_next, ai_step, ig⟩).drop 12)
      = start := by
    rw [hbR, List.drop_append_eq_append_drop,
      List.drop_append_eq_append_drop,
      List.drop_eq_nil_of_le (by omega : nm.length ≤ 12),
      List.drop_eq_nil_of_le
        (by rw [List.length_replicate]; omega :
          (List.replicate (11 - nm.length) 0).length ≤ 12 - nm.length),
      show 12 - nm.length - (List.replicate (11 - nm.length) 0).length = 1
        from by rw [List.length_replicate]; omega,
      List.nil_append, List.nil_append]
    exact le32_leWrite start _ hstart
  have e_16 :
      (FieldDef.to_bytes
        ⟨ft, nm, start, len, dc, flag, ai_next, ai_step, ig⟩).getD 16 0
      = len := by
    rw [hbR,
      List.getD_append_right _ _ _ _ (by omega : nm.length ≤ 16),
      List.getD_append_right _ _ _ _
        (by rw [List.length_replicate]; omega :
          (List.replicate (11 - nm.length) 0).length ≤ 16 - nm.length),
      show 16 - nm.length - (List.replicate (11 - nm.length) 0).length = 5
        from by rw [List.length_replicate]; omega]
    exact Nat.mod_eq_of_lt hlen256
  have e_17 :
      (FieldDef.to_bytes
        ⟨ft, nm, start, len, dc, flag, ai_next, ai_step, ig⟩).getD 17 0
      = dc := by
    rw [hbR,
      List.getD_append_right _ _ _ _ (by omega : nm.length ≤ 17),
      List.getD_append_right _ _ _ _
        (by rw [List.length_replicate]; omega :
          (List.replicate (11 - nm.length) 0).length ≤ 17 - nm.length),
      show 17 - nm.length - (List.replicate (11 - nm.length) 0).length = 6
        from by rw [List.length_replicate]; omega]
    exact Nat.mod_eq_of_lt hdc
  have e_18 :
      (FieldDef.to_bytes
        ⟨ft, nm, start, len, dc, flag, ai_next, ai_step, ig⟩).getD 18 0
      = flag := by
    rw [hbR,
      List.getD_append_right _ _ _ _ (by omega : nm.length ≤ 18),
      List.getD_append_right _ _ _ _
        (by rw [List.length_replicate]; omega :
          (List.replicate (11 - nm.length) 0).length ≤ 18 - nm.length),
      show 18 - nm.length - (List.replicate (11 - nm.length) 0).length = 7
        from by rw [List.length_replicate]; omega]
    exact Nat.mod_eq_of_lt hflag
  have e_ai :
      le32 ((FieldDef.to_bytes
        ⟨ft, nm, start, len, dc, flag, ai_next, ai_step, ig⟩).drop 19)
      = ai_next := by
    rw [hbR, List.drop_append_eq_append_drop,
      List.drop_append_eq_append_drop,
      List.drop_eq_nil_of_le (by omega : nm.length ≤ 19),
      List.drop_eq_nil_of_le
        (by rw [List.length_replicate]; omega :
          (List.replicate (11 - nm.length) 0).length ≤ 19 - nm.length),
      show 19 - nm.length - (List.replicate (11 - nm.length) 0).length = 8
        from by rw [List.length_replicate]; omega,
      List.nil_append, List.nil_append]
    exact le32_leWrite ai_next _ hai
  have e_23 :
      (FieldDef.to_bytes
        ⟨ft, nm, start, len, dc, flag, ai_next, ai_step, ig⟩).getD 23 0
      = ai_step := by
    rw [hbR,
      List.getD_append_right _ _ _ _ (by omega : nm.length ≤ 23),
      List.getD_append_right _ _ _ _
        (by rw [List.length_replicate]; omega :
          (List.replicate (11 - nm.length) 0).length ≤ 23 - nm.length),
      show 23 - nm.length - (List.replicate (11 - nm.length) 0).length = 12
        from by rw [List.length_replicate]; omega]
    exact Nat.mod_eq_of_lt hstep
  rw [DbfFields.parse.eq_def, if_neg (by rw [e_len]; simp),
    e_tag, get_typeCode, e_name, e_16, e_17, e_18, e_start, e_ai, e_23]
  simp only [Bind.bind, Except.bind]
  rw [mkField.eq_def]
  cases hfl : ft.fixedLength with
  | none =>
    have hnc : ft ≠ .currency := by
      rintro rfl
      simp [FieldType.fixedLength] at hfl
    have hlenpos := (hlenv hfl).1
    simp only [Bind.bind, Except.bind]
    rw [if_neg (by omega : ¬len = 0), if_neg (by omega : ¬nm.length > 10),
      hup, if_neg hnc]
  | some fl =>
    have hfleq := hlenf fl hfl
    simp only [Bind.bind, Except.bind]
    rw [if_neg (by omega : ¬nm.length > 10), hup, ← hfleq]
    by_cases hY : ft = .currency
    · rw [if_pos hY, hdcY hY]
    · rw [if_neg hY]

end Dbfpy

namespace Dbfpy

/-- Witness for C5: the numeric descriptor of the repository's field
test (name `NAME`, tag `N`, start 1, length 10, decimal count 2)
round-trips through serialize and parse. -/
theorem claim_C5_witness :
    (FieldDef.to_bytes
      ⟨.numeric, [78, 65, 77, 69], 1, 10, 2, 0, 0, 0, false⟩).length = 32
    ∧ DbfFields.parse
        (FieldDef.to_bytes
          ⟨.numeric, [78, 65, 77, 69], 1, 10, 2, 0, 0, 0, false⟩) false
      = .ok ⟨.numeric, [78, 65, 77, 69], 1, 10, 2, 0, 0, 0, false⟩ :=
  claim_C5 .numeric [78, 65, 77, 69] 1 10 2 0 0 0 false
    (by decide) (by decide) (by decide) (by decide)
    (fun fl h => Option.noConfusion h)
    (by decide) (by decide) (by decide) (by decide) (by decide) (by decide)

end Dbfpy

namespace Dbfpy

/-- Reading `k` bytes from a source that opens with at least `k` bytes
never looks past them. -/
theorem leRead_prefix (k : Nat) (l rest : Bytes) (h : k ≤ l.length) :
    leRead k (l ++ rest) = leRead k l := by
  induction k generalizing l with
  | zero => rfl
  | succ k ih =>
    cases l with
    | nil => simp at h
    | cons b t =>
      show b + 256 * leRead k (t ++ rest) = b + 256 * leRead k t
      rw [ih t (by simpa using h)]

/-- The offset discipline of the descriptor loop: each field's `start`
equals the running offset, which then advances by the field length. -/
def offsetsOk (pos : Nat) : List FieldDef → Bool
  | [] => true
  | fd :: rest => fd.start = pos && offsetsOk (fd.start + fd.length) rest

/-- One well-formed descriptor block per parsed field: 32 bytes, not
opening with the 0x0D terminator, and parsing (under the truthy
`ignore_errors` the source passes) to the field. -/
def BlocksParse (blocks : List Bytes) (fds : List FieldDef) : Prop :=
  List.Forall₂
    (fun b fd => b.length = 32 ∧ b.getD 0 0 ≠ 0x0D
      ∧ DbfFields.parse b true = .ok fd) blocks fds

/-- The descriptor loop stops immediately at the terminator. -/
theorem readFields_term (trailing : Bytes) (pos : Nat) :
    readFields (0x0D :: trailing) pos = .ok [] := by
  rw [readFields.eq_def]
  by_cases hlen : (0x0D :: trailing).length < 32
  · rw [dif_pos hlen]
  · have hhead : (List.take 32 (0x0D :: trailing)).getD 0 0 = 0x0D := by
      rw [List.take_succ_cons]
      rfl
    rw [dif_neg hlen, if_pos hhead]

/-- The descriptor loop over well-formed blocks: it returns exactly the
parsed fields when their offsets are consistent, and fails with the
CorruptSchema-kind field-start error otherwise. -/
theorem readFields_spec (blocks : List Bytes) (fds : List FieldDef)
    (trailing : Bytes) (pos : Nat) (hpos : 0 < pos)
    (hbp : BlocksParse blocks fds) :
    (offsetsOk pos fds = true →
      readFields (blocks.flatten ++ 0x0D :: trailing) pos = .ok fds)
    ∧ (offsetsOk pos fds = false →
      readFields (blocks.flatten ++ 0x0D :: trailing) pos
        = .error .fieldStartMismatch) := by
  induction hbp generalizing pos with
  | nil =>
    constructor
    · intro _
      simpa using readFields_term trailing pos
    · intro hfalse
      simp [offsetsOk] at hfalse
  | @cons b fd blocks' fds' hb hbp' ih =>
    obtain ⟨hb32, hb13, hbparse⟩ := hb
    have hstream : b ++ (blocks'.flatten ++ 0x0D :: trailing)
        = List.flatten (b :: blocks') ++ 0x0D :: trailing := by
      simp
    have hlen : ¬(List.flatten (b :: blocks') ++ 0x0D :: trailing).length < 32 := by
      rw [← hstream]
      simp [hb32]
    have htake : (List.flatten (b :: blocks') ++ 0x0D :: trailing).take 32
        = b := by
      rw [← hstream, List.take_append_eq_append_take,
        List.take_of_length_le (by omega), hb32]
      simp
    have hdrop : (List.flatten (b :: blocks') ++ 0x0D :: trailing).drop 32
        = blocks'.flatten ++ 0x0D :: trailing := by
      rw [← hstream, List.drop_append_eq_append_drop,
        List.drop_eq_nil_of_le (by omega), hb32]
      simp
    have hdec : decide (pos ≠ 0) = true := by
      simp
      omega
    constructor
    · intro hok
      simp only [offsetsOk, Bool.and_eq_true, decide_eq_true_eq] at hok
      obtain ⟨hstart, hrest⟩ := hok
      rw [readFields.eq_def, dif_neg hlen, if_neg (by rw [htake]; exact hb13),
        htake, hdec, hbparse]
      simp only [Bind.bind, Except.bind]
      rw [if_neg (by omega : ¬pos ≠ fd.start), hdrop,
        (ih (fd.start + fd.length) (by omega)).1 hrest]
    · intro hbad
      simp only [offsetsOk, Bool.and_eq_false_iff] at hbad
      rw [readFields.eq_def, dif_neg hlen, if_neg (by rw [htake]; exact hb13),
        htake, hdec, hbparse]
      simp only [Bind.bind, Except.bind]
      by_cases hstart : fd.start = pos
      · rw [if_neg (by omega : ¬pos ≠ fd.start), hdrop]
        have hrest : offsetsOk (fd.start + fd.length) fds' = false := by
          rcases hbad with h | h
          · simp [hstart] at h
          · exact h
        rw [(ih (fd.start + fd.length) (by omega)).2 hrest]
      · rw [if_pos (by omega : pos ≠ fd.start)]

end Dbfpy

namespace Dbfpy

/-- C8: header parse fails with the MalformedHeader-kind error when
fewer than 32 bytes are available; and over a 32-byte header (with a
valid last-update date, as the source builds `datetime.date` from it)
followed by well-formed 32-byte descriptor blocks and the 0x0D
terminator: a descriptor whose `start` differs from the running offset
(first field at offset 1) fails with the CorruptSchema-kind
field-start error; with consistent offsets, a sum-derived record
length different from the declared one fails with the
CorruptSchema-kind record-length error; and otherwise parse succeeds
with exactly the parsed schema. -/
theorem claim_C8 (stream : Bytes) (h32 trailing : Bytes)
    (blocks : List Bytes) (fds : List FieldDef)
    (hlen : h32.length = 32)
    (hdate : validDate (normYear (h32.getD 1 0)) (h32.getD 2 0)
      (h32.getD 3 0) = true)
    (hbp : BlocksParse blocks fds) :
    (stream.length < 32 →
      DbfHeader.parse stream = .error .malformedHeader)
    ∧ (offsetsOk 1 fds = false →
      DbfHeader.parse (h32 ++ (blocks.flatten ++ 0x0D :: trailing))
        = .error .fieldStartMismatch)
    ∧ (offsetsOk 1 fds = true →
      1 + (fds.map (·.length)).sum ≠ le16 (h32.drop 10) →
      DbfHeader.parse (h32 ++ (blocks.flatten ++ 0x0D :: trailing))
        = .error .recordLengthMismatch)
    ∧ (offsetsOk 1 fds = true →
      1 + (fds.map (·.length)).sum = le16 (h32.drop 10) →
      DbfHeader.parse (h32 ++ (blocks.flatten ++ 0x0D :: trailing))
        = .ok { signature := h32.getD 0 0,
                fields := fds.map
                  (fun fd => { fd with ignore_errors := false }),
                record_length := le16 (h32.drop 10),
                record_count := le32 (h32.drop 4),
                header_length := le16 (h32.drop 8),
                flag := h32.getD 28 0, code_page := h32.getD 29 0,
                ignore_errors := false, changed := false }) := by
  have hSlen : ¬(h32 ++ (blocks.flatten ++ 0x0D :: trailing)).length < 32 := by
    simp [hlen]
  have hgetD : ∀ i, i < 32 →
      (h32 ++ (blocks.flatten ++ 0x0D :: trailing)).getD i 0
        = h32.getD i 0 :=
    fun i hi => List.getD_append _ _ _ _ (by omega)
  have hdropS : (h32 ++ (blocks.flatten ++ 0x0D :: trailing)).drop 32
      = blocks.flatten ++ 0x0D :: trailing := List.drop_left' hlen
  have hdropk : ∀ k, k ≤ 28 →
      (h32 ++ (blocks.flatten ++ 0x0D :: trailing)).drop k
        = h32.drop k ++ (blocks.flatten ++ 0x0D :: trailing) := by
    intro k hk
    rw [List.drop_append_eq_append_drop,
      show k - h32.length = 0 from by omega, List.drop_zero]
  have hle16 : ∀ k, k ≤ 28 →
      le16 ((h32 ++ (blocks.flatten ++ 0x0D :: trailing)).drop k)
        = le16 (h32.drop k) := by
    intro k hk
    rw [hdropk k hk]
    exact leRead_prefix 2 _ _ (by simp [hlen]; omega)
  have hle32 : ∀ k, k ≤ 28 →
      le32 ((h32 ++ (blocks.flatten ++ 0x0D :: trailing)).drop k)
        = le32 (h32.drop k) := by
    intro k hk
    rw [hdropk k hk]
    exact leRead_prefix 4 _ _ (by simp [hlen]; omega)
  have hdate' : ¬¬(validDate
      (normYear ((h32 ++ (blocks.flatten ++ 0x0D :: trailing)).getD 1 0))
      ((h32 ++ (blocks.flatten ++ 0x0D :: trailing)).getD 2 0)
      ((h32 ++ (blocks.flatten ++ 0x0D :: trailing)).getD 3 0) = true) := by
    rw [hgetD 1 (by omega), hgetD 2 (by omega), hgetD 3 (by omega), hdate]
    simp
  refine ⟨?_, ?_, ?_, ?_⟩
  · intro h
    rw [DbfHeader.parse.eq_def, if_pos h]
  · intro hbad
    rw [DbfHeader.parse.eq_def, if_neg hSlen, if_neg hdate', hdropS,
      (readFields_spec blocks fds trailing 1 (by omega) hbp).2 hbad]
    rfl
  · intro hok hne
    rw [DbfHeader.parse.eq_def, if_neg hSlen, if_neg hdate', hdropS,
      (readFields_spec blocks fds trailing 1 (by omega) hbp).1 hok]
    simp only [Bind.bind, Except.bind]
    rw [DbfHeader.init.eq_def,
      if_pos (by
        rw [calc_record_length_set_ignore]
        refine ⟨by simp, ?_⟩
        rw [hle16 10 (by omega)]
        simpa [calc_record_length] using hne)]
  · intro hok heq
    rw [DbfHeader.parse.eq_def, if_neg hSlen, if_neg hdate', hdropS,
      (readFields_spec blocks fds trailing 1 (by omega) hbp).1 hok]
    simp only [Bind.bind, Except.bind]
    rw [DbfHeader.init.eq_def,
      if_neg (by
        rw [calc_record_length_set_ignore]
        intro hcontra
        rw [hle16 10 (by omega)] at hcontra
        exact hcontra.2 (by simpa [calc_record_length] using heq)),
      hgetD 0 (by omega), hgetD 28 (by omega), hgetD 29 (by omega),
      hle16 8 (by omega), hle16 10 (by omega), hle32 4 (by omega)]

end Dbfpy

namespace Dbfpy

/-- Witness for C8: a 3-byte stream fails as malformed, and a
well-formed header (signature 3, record count 0, header length 65,
record length 8, last update 2026-01-01) followed by one character
descriptor (name `A`, start 1, length 7) and the terminator parses to
exactly that schema. -/
theorem claim_C8_witness :
    DbfHeader.parse [1, 2, 3] = .error .malformedHeader
    ∧ DbfHeader.parse
        (([3, 26, 1, 1, 0, 0, 0, 0, 65, 0, 8, 0] ++ List.replicate 16 0
          ++ [0, 0, 0, 0])
          ++ (([([65, 0, 0, 0, 0, 0, 0, 0, 0, 0, 0] ++ [67] ++ [1, 0, 0, 0]
            ++ [7, 0, 0] ++ [0, 0, 0, 0] ++ [0] ++ List.replicate 8 0)]
              : List Bytes).flatten ++ 0x0D :: []))
      = .ok { signature := 3,
              fields := [{ ftype := .character, name := [65], start := 1,
                           length := 7, decimal_count := 0, flag := 0,
                           ai_next := 0, ai_step := 0,
                           ignore_errors := false }],
              record_length := 8, record_count := 0, header_length := 65,
              flag := 0, code_page := 0, ignore_errors := false,
              changed := false } := by
  have hbp : BlocksParse
      [([65, 0, 0, 0, 0, 0, 0, 0, 0, 0, 0] ++ [67] ++ [1, 0, 0, 0]
        ++ [7, 0, 0] ++ [0, 0, 0, 0] ++ [0] ++ List.replicate 8 0)]
      [{ ftype := .character, name := [65], start := 1, length := 7,
         decimal_count := 0, flag := 0, ai_next := 0, ai_step := 0,
         ignore_errors := true }] :=
    List.Forall₂.cons ⟨by decide, by decide, by decide⟩ List.Forall₂.nil
  have happ := claim_C8 [1, 2, 3]
    ([3, 26, 1, 1, 0, 0, 0, 0, 65, 0, 8, 0] ++ List.replicate 16 0
      ++ [0, 0, 0, 0]) []
    [([65, 0, 0, 0, 0, 0, 0, 0, 0, 0, 0] ++ [67] ++ [1, 0, 0, 0]
      ++ [7, 0, 0] ++ [0, 0, 0, 0] ++ [0] ++ List.replicate 8 0)]
    [{ ftype := .character, name := [65], start := 1, length := 7,
       decimal_count := 0, flag := 0, ai_next := 0, ai_step := 0,
       ignore_errors := true }]
    (by decide) (by decide) hbp
  refine ⟨happ.1 (by decide), ?_⟩
  have := happ.2.2.2 (by decide) (by decide)
  rw [this]
  rfl

end Dbfpy
